import Mathlib

/-!
Verification of the pyecospold core module (`pyecospold/core.py`) against its
natural-language specification.

The Python code is shallowly embedded:
* the two element-class catalogs (`EcospoldLookupV1.lookup` / `EcospoldLookupV2.lookup`)
  become association lists over an inductive type enumerating the backing classes,
  and the dictionary indexing guarded by `try/except KeyError` becomes `List.lookup`
  into `Option` (Python's `None` fallback is `Option.none`);
* the typed-attribute get/set layer (pyecospold's helpers/model modules, not part of
  the embedded sources) is modelled from the specification;
* `validate_file`, `parse_directory` and `save_file` are embedded with the external
  lxml engine represented at its boundary (schema validation as a predicate with an
  error log, file parsing as an `Except` value, serialization as a pure printer).
-/

namespace Pyecospold

/-- The concrete element classes imported by `core.py` from `model_v1` and
`model_v2` (aliased with `V1`/`V2` suffixes exactly as in the import list). -/
inductive EcospoldClass where
  | AdministrativeInformationV1
  | Allocation
  | DataEntryByV1
  | DataGeneratorAndPublicationV1
  | Dataset
  | DataSetInformation
  | EcoSpoldV1
  | Exchange
  | FlowDataV1
  | GeographyV1
  | MetaInformation
  | ModellingAndValidationV1
  | Person
  | ProcessInformation
  | ReferenceFunction
  | RepresentativenessV1
  | Source
  | TechnologyV1
  | TimePeriodV1
  | Validation
  | Activity
  | ActivityDataset
  | ActivityDescription
  | AdministrativeInformationV2
  | Classification
  | Comment
  | DataEntryByV2
  | DataGeneratorAndPublicationV2
  | EcoSpoldV2
  | ElementaryExchange
  | FileAttributes
  | FlowDataV2
  | GeographyV2
  | ImpactIndicator
  | IntermediateExchange
  | MacroEconomicScenario
  | ModellingAndValidationV2
  | Parameter
  | Property
  | RepresentativenessV2
  | Review
  | TechnologyV2
  | TimePeriodV2
  | TransferCoefficient
  | Uncertainty
  deriving DecidableEq, Repr

/-- The `lookupmap` dictionary literal of `EcospoldLookupV1.lookup`
(`core.py` lines 50-71), in source order. -/
def lookupmapV1 : List (String × EcospoldClass) :=
  [ ("administrativeInformation", .AdministrativeInformationV1),
    ("allocation", .Allocation),
    ("dataEntryBy", .DataEntryByV1),
    ("dataGeneratorAndPublication", .DataGeneratorAndPublicationV1),
    ("dataset", .Dataset),
    ("dataSetInformation", .DataSetInformation),
    ("ecoSpold", .EcoSpoldV1),
    ("exchange", .Exchange),
    ("flowData", .FlowDataV1),
    ("geography", .GeographyV1),
    ("metaInformation", .MetaInformation),
    ("modellingAndValidation", .ModellingAndValidationV1),
    ("person", .Person),
    ("processInformation", .ProcessInformation),
    ("referenceFunction", .ReferenceFunction),
    ("representativeness", .RepresentativenessV1),
    ("source", .Source),
    ("technology", .TechnologyV1),
    ("timePeriod", .TimePeriodV1),
    ("validation", .Validation) ]

/-- The `lookupmap` dictionary literal of `EcospoldLookupV2.lookup`
(`core.py` lines 83-112), in source order. -/
def lookupmapV2 : List (String × EcospoldClass) :=
  [ ("activity", .Activity),
    ("activityDataset", .ActivityDataset),
    ("activityDescription", .ActivityDescription),
    ("administrativeInformation", .AdministrativeInformationV2),
    ("allocationComment", .Comment),
    ("childActivityDataset", .ActivityDataset),
    ("classification", .Classification),
    ("comment", .Comment),
    ("dataEntryBy", .DataEntryByV2),
    ("dataGeneratorAndPublication", .DataGeneratorAndPublicationV2),
    ("ecoSpold", .EcoSpoldV2),
    ("elementaryExchange", .ElementaryExchange),
    ("fileAttributes", .FileAttributes),
    ("flowData", .FlowDataV2),
    ("generalComment", .Comment),
    ("geography", .GeographyV2),
    ("impactIndicator", .ImpactIndicator),
    ("intermediateExchange", .IntermediateExchange),
    ("macroEconomicScenario", .MacroEconomicScenario),
    ("modellingAndValidation", .ModellingAndValidationV2),
    ("parameter", .Parameter),
    ("property", .Property),
    ("representativeness", .RepresentativenessV2),
    ("review", .Review),
    ("technology", .TechnologyV2),
    ("timePeriod", .TimePeriodV2),
    ("transferCoefficient", .TransferCoefficient),
    ("uncertainty", .Uncertainty) ]

/-- `EcospoldLookupV1.lookup(self, unused_node_type, unused_document,
unused_namespace, name)`: indexes the dictionary by `name` and returns `None`
on `KeyError`.  The dictionary keys are pairwise distinct, so indexing is
`List.lookup` on the association list; the `try/except` fallback is `none`.
The three unused parameters are kept with arbitrary types. -/
def EcospoldLookupV1.lookup {α β γ : Type} (unused_node_type : α)
    (unused_document : β) (unused_ns : γ) (name : String) : Option EcospoldClass :=
  let _ := unused_node_type
  let _ := unused_document
  let _ := unused_ns
  List.lookup name lookupmapV1

/-- `EcospoldLookupV2.lookup`, embedded exactly like the V1 resolver. -/
def EcospoldLookupV2.lookup {α β γ : Type} (unused_node_type : α)
    (unused_document : β) (unused_ns : γ) (name : String) : Option EcospoldClass :=
  let _ := unused_node_type
  let _ := unused_document
  let _ := unused_ns
  List.lookup name lookupmapV2

/-- Helper: on an association list with pairwise-distinct keys (a Python dict),
`List.lookup` returns the value of any member pair. -/
theorem lookup_eq_some_of_mem {α β : Type} [DecidableEq α] :
    ∀ {l : List (α × β)}, (l.map Prod.fst).Nodup →
      ∀ {a : α} {b : β}, (a, b) ∈ l → List.lookup a l = some b := by
  intro l
  induction l with
  | nil => intro _ a b h; cases h
  | cons p t ih =>
    intro hnd a b hmem
    rw [List.map_cons, List.nodup_cons] at hnd
    rcases List.mem_cons.mp hmem with heq | ht
    · subst heq
      simp [List.lookup]
    · have hne : a ≠ p.1 := by
        intro hcontra
        exact hnd.1 (hcontra ▸ List.mem_map_of_mem Prod.fst ht)
      have hb : (a == p.1) = false := beq_eq_false_iff_ne.mpr hne
      simp only [List.lookup, hb]
      exact ih hnd.2 ht

/-- Helper: `List.lookup` returns `none` exactly when no pair carries the key. -/
theorem lookup_eq_none_of_not_mem {α β : Type} [DecidableEq α] :
    ∀ {l : List (α × β)} {a : α}, (∀ b : β, (a, b) ∉ l) → List.lookup a l = none := by
  intro l
  induction l with
  | nil => intro a _; rfl
  | cons p t ih =>
    intro a h
    have hne : a ≠ p.1 := by
      intro hcontra
      exact h p.2 (by rw [hcontra]; exact List.mem_cons_self _ _)
    have hb : (a == p.1) = false := beq_eq_false_iff_ne.mpr hne
    simp only [List.lookup, hb]
    exact ih (fun b hb => h b (List.mem_cons_of_mem _ hb))

/-- Helper: `List.lookup` returns `none` when the key is absent from the keys. -/
theorem lookup_eq_none_of_not_mem_keys {α β : Type} [DecidableEq α] :
    ∀ {l : List (α × β)} {a : α}, a ∉ l.map Prod.fst → List.lookup a l = none := by
  intro l
  induction l with
  | nil => intro a _; rfl
  | cons p t ih =>
    intro a h
    rw [List.map_cons, List.mem_cons] at h
    push_neg at h
    have hb : (a == p.1) = false := beq_eq_false_iff_ne.mpr h.1
    simp only [List.lookup, hb]
    exact ih h.2

/-- The V1 dictionary keys are pairwise distinct. -/
theorem lookupmapV1_keys_nodup : (lookupmapV1.map Prod.fst).Nodup := by decide

/-- The V2 dictionary keys are pairwise distinct. -/
theorem lookupmapV2_keys_nodup : (lookupmapV2.map Prod.fst).Nodup := by decide

/-- C1: for every tag name, the resolver returns the class the active
version's catalog maps the tag to when the tag is present, and the fallback
sentinel `none` when the tag is absent.  The embedded `lookup` is a total
function into `Option`, mirroring the `try/except KeyError` guard, so it
never raises for any input tag name. -/
theorem lookup_catalog_spec {α β γ : Type} (nt : α) (doc : β) (ns : γ) (name : String) :
    ((∀ c : EcospoldClass, (name, c) ∈ lookupmapV1 →
        EcospoldLookupV1.lookup nt doc ns name = some c) ∧
      (name ∉ lookupmapV1.map Prod.fst → EcospoldLookupV1.lookup nt doc ns name = none)) ∧
    ((∀ c : EcospoldClass, (name, c) ∈ lookupmapV2 →
        EcospoldLookupV2.lookup nt doc ns name = some c) ∧
      (name ∉ lookupmapV2.map Prod.fst → EcospoldLookupV2.lookup nt doc ns name = none)) := by
  refine ⟨⟨fun c hc => ?_, fun h => ?_⟩, fun c hc => ?_, fun h => ?_⟩
  · exact lookup_eq_some_of_mem lookupmapV1_keys_nodup hc
  · exact lookup_eq_none_of_not_mem_keys h
  · exact lookup_eq_some_of_mem lookupmapV2_keys_nodup hc
  · exact lookup_eq_none_of_not_mem_keys h

/-- Witness for `lookup_catalog_spec` at concrete tags. -/
theorem lookup_catalog_spec_witness :
    EcospoldLookupV1.lookup 0 0 0 "dataset" = some EcospoldClass.Dataset ∧
    EcospoldLookupV1.lookup 0 0 0 "notATag" = none ∧
    EcospoldLookupV2.lookup 0 0 0 "activity" = some EcospoldClass.Activity ∧
    EcospoldLookupV2.lookup 0 0 0 "notATag" = none :=
  ⟨(lookup_catalog_spec 0 0 0 "dataset").1.1 _ (by decide),
   (lookup_catalog_spec 0 0 0 "notATag").1.2 (by decide),
   (lookup_catalog_spec 0 0 0 "activity").2.1 _ (by decide),
   (lookup_catalog_spec 0 0 0 "notATag").2.2 (by decide)⟩

/-- C4: the V1 and V2 catalogs never cross-resolve — a tag present only in
the V2 catalog resolves to the fallback sentinel under the V1 resolver, and
symmetrically a tag present only in the V1 catalog resolves to the fallback
sentinel under the V2 resolver. -/
theorem catalogs_never_cross_resolve {α β γ : Type} (nt : α) (doc : β) (ns : γ)
    (name : String) :
    (name ∈ lookupmapV2.map Prod.fst → name ∉ lookupmapV1.map Prod.fst →
      EcospoldLookupV1.lookup nt doc ns name = none) ∧
    (name ∈ lookupmapV1.map Prod.fst → name ∉ lookupmapV2.map Prod.fst →
      EcospoldLookupV2.lookup nt doc ns name = none) :=
  ⟨fun _ h1 => lookup_eq_none_of_not_mem_keys h1,
   fun _ h2 => lookup_eq_none_of_not_mem_keys h2⟩

/-- Witness for `catalogs_never_cross_resolve` at the tags named by the
specification: V2-only tags under the V1 resolver and V1-only tags under the
V2 resolver. -/
theorem catalogs_never_cross_resolve_witness :
    EcospoldLookupV1.lookup 0 0 0 "activity" = none ∧
    EcospoldLookupV1.lookup 0 0 0 "parameter" = none ∧
    EcospoldLookupV1.lookup 0 0 0 "uncertainty" = none ∧
    EcospoldLookupV2.lookup 0 0 0 "dataset" = none ∧
    EcospoldLookupV2.lookup 0 0 0 "exchange" = none :=
  ⟨(catalogs_never_cross_resolve 0 0 0 "activity").1 (by decide) (by decide),
   (catalogs_never_cross_resolve 0 0 0 "parameter").1 (by decide) (by decide),
   (catalogs_never_cross_resolve 0 0 0 "uncertainty").1 (by decide) (by decide),
   (catalogs_never_cross_resolve 0 0 0 "dataset").2 (by decide) (by decide),
   (catalogs_never_cross_resolve 0 0 0 "exchange").2 (by decide) (by decide)⟩

/-- C5: the resolvers are deterministic pure functions of the tag name alone:
the node-type, document and namespace arguments do not influence the result,
so two calls with the same name return the same class regardless of the other
arguments (and, the embedding being a pure function, regardless of prior
calls). -/
theorem lookup_depends_only_on_name {α₁ β₁ γ₁ α₂ β₂ γ₂ : Type}
    (nt₁ : α₁) (d₁ : β₁) (ns₁ : γ₁) (nt₂ : α₂) (d₂ : β₂) (ns₂ : γ₂) (name : String) :
    EcospoldLookupV1.lookup nt₁ d₁ ns₁ name = EcospoldLookupV1.lookup nt₂ d₂ ns₂ name ∧
    EcospoldLookupV2.lookup nt₁ d₁ ns₁ name = EcospoldLookupV2.lookup nt₂ d₂ ns₂ name :=
  ⟨rfl, rfl⟩

/-- Modelled from the spec: character of a single decimal digit, used by the
canonical text representation of floats (spec 4.1: the typed setter converts
a numeric value to its canonical text). -/
def digitChar (d : Nat) : Char :=
  Char.ofNat (48 + d)

/-- Modelled from the spec: the digit value of a character, `none` on a
non-digit (spec 4.1: the typed getter parses raw text into the declared
type). -/
def charDigit (c : Char) : Option Nat :=
  if 48 ≤ c.toNat ∧ c.toNat ≤ 57 then some (c.toNat - 48) else none

/-- A character is a decimal digit. -/
def isDigitChar (c : Char) : Bool :=
  (charDigit c).isSome

/-- Modelled from the spec: big-endian decimal digit characters of a natural
number (the integral part of a float's canonical text). -/
def natChars (n : Nat) : List Char :=
  if n = 0 then ['0'] else ((Nat.digits 10 n).map digitChar).reverse

/-- Modelled from the spec: the natural number denoted by a big-endian list of
digit characters. -/
def charsNat (cs : List Char) : Nat :=
  Nat.ofDigits 10 ((cs.map (fun c => (charDigit c).getD 0)).reverse)

/-- Modelled from the spec: a float value in its canonical decimal shape —
sign, integral part, and the explicit list of fraction digits.  pyecospold's
helpers module (the typed-attribute layer the spec's section 4.1 describes and
`tests/test_helpers.py` exercises) is not among the embedded sources, so the
numeric domain is modelled as canonical decimals; `1.0` is
`⟨false, 1, [0]⟩` and `2.0` is `⟨false, 2, [0]⟩`. -/
structure PyFloat where
  neg : Bool
  intPart : Nat
  frac : List Nat
  deriving DecidableEq, Repr

/-- Well-formedness of a canonical decimal: every fraction digit is a digit. -/
def PyFloat.wf (x : PyFloat) : Prop :=
  ∀ d ∈ x.frac, d < 10

/-- Modelled from the spec: the canonical text representation of a float
(spec 4.1: floats are formatted without trailing artifacts, e.g. `2.0`). -/
def printPyFloat (x : PyFloat) : List Char :=
  (if x.neg then ['-'] else []) ++ natChars x.intPart ++ '.' :: x.frac.map digitChar

/-- Modelled from the spec: parse the integral and fraction digit runs of an
unsigned decimal literal; `none` when the text is not a decimal literal. -/
def parseUFloat (cs : List Char) : Option (Nat × List Nat) :=
  if (cs.takeWhile isDigitChar).isEmpty then none
  else if (cs.dropWhile isDigitChar).head? = some '.' then
    if (cs.dropWhile isDigitChar).tail.all isDigitChar then
      some (charsNat (cs.takeWhile isDigitChar),
        (cs.dropWhile isDigitChar).tail.map (fun c => (charDigit c).getD 0))
    else none
  else none

/-- Modelled from the spec: parse raw text into a float; syntactically invalid
text yields `none` (spec 4.1: parsing failure is treated as value unset). -/
def parsePyFloat (s : String) : Option PyFloat :=
  if s.toList.head? = some '-' then
    (parseUFloat s.toList.tail).map (fun p => ⟨true, p.1, p.2⟩)
  else
    (parseUFloat s.toList).map (fun p => ⟨false, p.1, p.2⟩)

/-- Modelled from the spec: a value a caller may assign to a typed field —
either a float or an arbitrary string such as `"abc"` (spec 4.1: the setter
accepts any value and always succeeds as a storage operation). -/
inductive PyValue where
  | str (s : String)
  | flt (x : PyFloat)

/-- Modelled from the spec: the canonical text the setter stores — a float is
formatted canonically, a string is stored as is. -/
def canonicalText : PyValue → String
  | .str s => s
  | .flt x => String.mk (printPyFloat x)

/-- Modelled from the spec: one float-typed attribute cell — the raw text
currently stored (absent before any assignment) and the field's
schema-declared default (spec 4.1, 3: raw text is the source of truth,
defaults may be schema-specified). -/
structure FloatField where
  raw : Option String
  default : PyFloat
  deriving Repr

/-- Modelled from the spec: the typed setter — converts the value to its
canonical text and stores it in the single targeted raw-text cell; it is a
total function, so it always succeeds without raising. -/
def FloatField.set (fld : FloatField) (v : PyValue) : FloatField :=
  ⟨some (canonicalText v), fld.default⟩

/-- Modelled from the spec: the typed getter — parses the stored raw text as a
float and returns the field's declared default when the text is absent or does
not parse; a total function, so it never raises. -/
def FloatField.get (fld : FloatField) : PyFloat :=
  match fld.raw with
  | none => fld.default
  | some t => (parsePyFloat t).getD fld.default

/-- The `amount` attribute of a `ReferenceFunction` node, whose declared
default is `1.0` (`tests/test_helpers.py`). -/
def amountField : FloatField :=
  ⟨none, ⟨false, 1, [0]⟩⟩

/-- Parsing a printed digit recovers the digit. -/
theorem charDigit_digitChar : ∀ d : Nat, d < 10 → charDigit (digitChar d) = some d := by
  decide

/-- A printed digit is a digit character. -/
theorem isDigitChar_digitChar : ∀ d : Nat, d < 10 → isDigitChar (digitChar d) = true := by
  decide

/-- `natChars` never prints the empty list. -/
theorem natChars_ne_nil (n : Nat) : natChars n ≠ [] := by
  unfold natChars
  split
  · exact fun h => List.noConfusion h
  next h =>
    intro hc
    rw [List.reverse_eq_nil_iff, List.map_eq_nil_iff] at hc
    exact (Nat.digits_ne_nil_iff_ne_zero.mpr h) hc

/-- Every character `natChars` prints is a digit. -/
theorem natChars_digits (n : Nat) : ∀ c ∈ natChars n, isDigitChar c = true := by
  intro c hc
  unfold natChars at hc
  split at hc
  · rw [List.mem_singleton] at hc
    subst hc
    decide
  · rw [List.mem_reverse] at hc
    rcases List.mem_map.mp hc with ⟨d, hd, rfl⟩
    exact isDigitChar_digitChar d (Nat.digits_lt_base (by norm_num) hd)

/-- `charsNat` inverts `natChars`. -/
theorem charsNat_natChars (n : Nat) : charsNat (natChars n) = n := by
  unfold natChars
  split
  next h => subst h; decide
  next h =>
    unfold charsNat
    rw [List.map_reverse, List.reverse_reverse, List.map_map]
    have hcongr : (Nat.digits 10 n).map ((fun c => (charDigit c).getD 0) ∘ digitChar) =
        (Nat.digits 10 n).map id := by
      apply List.map_congr_left
      intro d hd
      have hlt : d < 10 := Nat.digits_lt_base (by norm_num) hd
      simp [Function.comp, charDigit_digitChar d hlt]
    rw [hcongr, List.map_id, Nat.ofDigits_digits]

/-- Splitting a character run at the first non-digit: `takeWhile` keeps exactly
the digit run and `dropWhile` keeps the rest. -/
theorem takeWhile_dropWhile_append {p : Char → Bool} :
    ∀ (l1 : List Char), (∀ x ∈ l1, p x = true) → ∀ (c : Char), p c = false →
      ∀ (l2 : List Char),
        (l1 ++ c :: l2).takeWhile p = l1 ∧ (l1 ++ c :: l2).dropWhile p = c :: l2 := by
  intro l1
  induction l1 with
  | nil =>
    intro _ c hc l2
    refine ⟨?_, ?_⟩
    · simp [List.takeWhile_cons, hc]
    · simp [List.dropWhile_cons, hc]
  | cons a t ih =>
    intro h c hc l2
    have ha : p a = true := h a (List.mem_cons_self a t)
    have iht := ih (fun x hx => h x (List.mem_cons_of_mem a hx)) c hc l2
    refine ⟨?_, ?_⟩
    · simp [List.takeWhile_cons, ha, iht.1]
    · simp [List.dropWhile_cons, ha, iht.2]

/-- Mapping the digit values of printed digits recovers the digit list. -/
theorem map_charDigit_map_digitChar {fr : List Nat} (h : ∀ d ∈ fr, d < 10) :
    (fr.map digitChar).map (fun c => (charDigit c).getD 0) = fr := by
  rw [List.map_map]
  have hcongr : fr.map ((fun c => (charDigit c).getD 0) ∘ digitChar) = fr.map id :=
    List.map_congr_left (fun d hd => by simp [Function.comp, charDigit_digitChar d (h d hd)])
  rw [hcongr, List.map_id]

/-- `parseUFloat` inverts the unsigned part of `printPyFloat`. -/
theorem parseUFloat_print (i : Nat) (fr : List Nat) (h : ∀ d ∈ fr, d < 10) :
    parseUFloat (natChars i ++ '.' :: fr.map digitChar) = some (i, fr) := by
  have hdot : isDigitChar '.' = false := by decide
  have hsplit :=
    takeWhile_dropWhile_append (natChars i) (natChars_digits i) '.' hdot (fr.map digitChar)
  have hall : (fr.map digitChar).all isDigitChar = true :=
    List.all_eq_true.mpr (by
      intro c hc
      rcases List.mem_map.mp hc with ⟨d, hd, rfl⟩
      exact isDigitChar_digitChar d (h d hd))
  have hempty : (natChars i).isEmpty = false := List.isEmpty_eq_false.mpr (natChars_ne_nil i)
  unfold parseUFloat
  rw [hsplit.1, hsplit.2, hempty]
  simp only [List.head?, List.tail, Bool.false_eq_true, if_false, if_pos rfl, hall, if_true,
    charsNat_natChars, map_charDigit_map_digitChar h]

/-- `parsePyFloat` inverts `printPyFloat` on well-formed floats: the canonical
text representation round-trips through parsing. -/
theorem parsePyFloat_print (x : PyFloat) (h : x.wf) :
    parsePyFloat (String.mk (printPyFloat x)) = some x := by
  obtain ⟨ng, i, fr⟩ := x
  have hfr : ∀ d ∈ fr, d < 10 := h
  have htoList : ∀ l : List Char, (String.mk l).toList = l := fun _ => rfl
  cases ng with
  | true =>
    unfold parsePyFloat
    rw [htoList]
    have hp : printPyFloat ⟨true, i, fr⟩ = '-' :: (natChars i ++ '.' :: fr.map digitChar) := by
      simp [printPyFloat]
    rw [hp]
    have hcond : ('-' :: (natChars i ++ '.' :: fr.map digitChar)).head? = some '-' := rfl
    rw [if_pos hcond]
    have htail : ('-' :: (natChars i ++ '.' :: fr.map digitChar)).tail =
        natChars i ++ '.' :: fr.map digitChar := rfl
    rw [htail, parseUFloat_print i fr hfr]
    rfl
  | false =>
    unfold parsePyFloat
    rw [htoList]
    have hp : printPyFloat ⟨false, i, fr⟩ = natChars i ++ '.' :: fr.map digitChar := by
      simp [printPyFloat]
    rw [hp]
    obtain ⟨a, t, hat⟩ := List.exists_cons_of_ne_nil (natChars_ne_nil i)
    have hadigit : isDigitChar a = true := by
      apply natChars_digits i
      rw [hat]
      exact List.mem_cons_self a t
    have hane : ¬((natChars i ++ '.' :: fr.map digitChar).head? = some '-') := by
      rw [hat]
      simp only [List.cons_append, List.head?, Option.some.injEq]
      intro hcontra
      rw [hcontra] at hadigit
      exact absurd hadigit (by decide)
    rw [if_neg hane, parseUFloat_print i fr hfr]
    rfl

/-- A float whose fraction is one digit below ten is well formed. -/
theorem PyFloat.wf_singleton {b : Bool} {i d : Nat} (hd : d < 10) :
    PyFloat.wf ⟨b, i, [d]⟩ := by
  intro e he
  have he' : e ∈ [d] := he
  rw [List.mem_singleton] at he'
  omega

/-- C3: the set/get round-trip law for valid numeric values — writing a
well-formed float through the typed setter and reading it back through the
typed getter returns the same value in the type's canonical representation. -/
theorem set_get_roundtrip (fld : FloatField) (x : PyFloat) (h : x.wf) :
    (fld.set (.flt x)).get = x := by
  simp only [FloatField.set, FloatField.get, canonicalText, parsePyFloat_print x h,
    Option.getD_some]

/-- Witness for `set_get_roundtrip`: setting the `amount` field of a
reference-function node to `2.0` and reading it back returns `2.0`. -/
theorem set_get_roundtrip_witness :
    (amountField.set (.flt ⟨false, 2, [0]⟩)).get = ⟨false, 2, [0]⟩ :=
  set_get_roundtrip amountField ⟨false, 2, [0]⟩ (PyFloat.wf_singleton (by norm_num))

/-- C2: every syntactically invalid assignment to a float-typed field
succeeds (the setter is total) and the subsequent get returns the field's
declared default — a float, hence neither the invalid string nor an
exception. -/
theorem set_invalid_get_default (fld : FloatField) (s : String)
    (h : parsePyFloat s = none) :
    (fld.set (.str s)).get = fld.default := by
  simp only [FloatField.set, FloatField.get, canonicalText, h, Option.getD_none]

/-- Witness for `set_invalid_get_default`: assigning `"abc"` to the `amount`
field whose declared default is `1.0` reads back as `1.0`. -/
theorem set_invalid_get_default_witness :
    parsePyFloat "abc" = none ∧
      (amountField.set (.str "abc")).get = (⟨false, 1, [0]⟩ : PyFloat) :=
  ⟨by decide, set_invalid_get_default amountField "abc" (by decide)⟩

/-- The lxml schema boundary used by `validate_file`: a conformance predicate
over parsed documents together with the engine's diagnostic log, which is
non-empty exactly when validation fails (the engine's contract). -/
structure XMLSchema (Doc : Type) where
  validate : Doc → Bool
  error_log : Doc → List String
  error_log_ne : ∀ d, validate d = false → error_log d ≠ []

/-- `validate_file(file, schema_path)` (`core.py` lines 161-179): parse the
document (`etree.parse` raises on unreadable or malformed input, embedded as
`Except.error`), then return `schema.error_log` if `schema.validate(doc)` is
false and `None` otherwise.  No element-class lookup is involved: the typed
tree is never built. -/
def validate_file {Doc : Type} (schema : XMLSchema Doc) (file : Except String Doc) :
    Except String (Option (List String)) :=
  match file with
  | .error e => .error e
  | .ok doc => if schema.validate doc then .ok none else .ok (some (schema.error_log doc))

/-- C6: `validate_file` returns the no-errors sentinel `none` on a conformant
document and the engine's non-empty ordered diagnostic list on a
schema-violating one, never raising for mere invalidity; only unreadable or
malformed input propagates as an error. -/
theorem validate_file_spec {Doc : Type} (schema : XMLSchema Doc)
    (file : Except String Doc) :
    (∀ doc, file = .ok doc → schema.validate doc = true →
      validate_file schema file = .ok none) ∧
    (∀ doc, file = .ok doc → schema.validate doc = false →
      validate_file schema file = .ok (some (schema.error_log doc)) ∧
        schema.error_log doc ≠ []) ∧
    (∀ e, file = .error e → validate_file schema file = .error e) := by
  refine ⟨fun doc hf hv => ?_, fun doc hf hv => ⟨?_, schema.error_log_ne doc hv⟩,
    fun e hf => ?_⟩
  · subst hf; simp [validate_file, hv]
  · subst hf; simp [validate_file, hv]
  · subst hf; rfl

/-- A concrete schema over `Bool` documents: `true` is conformant, `false`
violates the schema with one diagnostic. -/
def boolSchema : XMLSchema Bool :=
  ⟨fun d => d, fun d => if d then [] else ["attribute x is required but missing"],
   by decide⟩

/-- Witness for `validate_file_spec` on a conformant document, a
schema-violating document, and malformed input. -/
theorem validate_file_spec_witness :
    validate_file boolSchema (.ok true) = .ok none ∧
    validate_file boolSchema (.ok false) =
      .ok (some ["attribute x is required but missing"]) ∧
    validate_file boolSchema (.error "malformed input") = .error "malformed input" :=
  ⟨(validate_file_spec boolSchema (.ok true)).1 true rfl rfl,
   ((validate_file_spec boolSchema (.ok false)).2.1 false rfl rfl).1,
   (validate_file_spec boolSchema (.error "malformed input")).2.2 "malformed input" rfl⟩

/-- A directory entry as `Path.iterdir` yields it: its name, whether it is a
regular file (`Path.is_file()`), and its `Path.suffix`. -/
structure DirEntry where
  name : String
  is_file : Bool
  suffix : String
  deriving DecidableEq, Repr

/-- Python's `str.lower()` on a suffix (ASCII case folding, character by
character). -/
def strLower (s : String) : String :=
  String.mk (s.toList.map Char.toLower)

/-- The selection condition of `parse_directory`'s list comprehension
(`core.py` line 276): `file_path.is_file() and file_path.suffix.lower() in
valid_suffixes`. -/
def selects (valid_suffixes : List String) (f : DirEntry) : Bool :=
  f.is_file && valid_suffixes.contains (strLower f.suffix)

/-- `parse_directory` (`core.py` lines 246-277): default the suffix allow-list
to `[".xml", ".spold"]` when `None`, then parse every selected direct entry of
the directory in enumeration order.  The list comprehension evaluates
left-to-right and an exception raised by any `parse_file` call propagates,
embedded as `mapM` over `Except`. -/
def parse_directory {E R : Type} (entries : List DirEntry)
    (pf : DirEntry → Except E R) (valid_suffixes : Option (List String)) :
    Except E (List (DirEntry × R)) :=
  let vs := valid_suffixes.getD [".xml", ".spold"]
  (entries.filter (selects vs)).mapM (fun f => (pf f).map (fun r => (f, r)))

/-- Helper: `mapM` over `Except` succeeds when every element parses, pairing
each entry with its parse result in order. -/
theorem mapM_pair_ok {E R : Type} (pf : DirEntry → Except E R) :
    ∀ (sel : List DirEntry), (∀ f ∈ sel, ∃ r, pf f = .ok r) →
      ∃ l, sel.mapM (fun f => (pf f).map (fun r => (f, r))) = .ok l ∧
        l.map Prod.fst = sel ∧ ∀ fr ∈ l, pf fr.1 = .ok fr.2 := by
  intro sel
  induction sel with
  | nil =>
    intro _
    exact ⟨[], rfl, rfl, fun fr hfr => absurd hfr (List.not_mem_nil fr)⟩
  | cons a t ih =>
    intro h
    obtain ⟨r, hr⟩ := h a (List.mem_cons_self a t)
    obtain ⟨l, hl, hfst, hok⟩ := ih (fun f hf => h f (List.mem_cons_of_mem a hf))
    refine ⟨(a, r) :: l, ?_, ?_, ?_⟩
    · rw [List.mapM_cons, hr, hl]
      rfl
    · rw [List.map_cons, hfst]
    · intro fr hfr
      rcases List.mem_cons.mp hfr with rfl | hmem
      · exact hr
      · exact hok fr hmem

/-- Helper: `mapM` over `Except` fails whole when some element fails to parse,
returning the parse error of a failing element. -/
theorem mapM_pair_error {E R : Type} (pf : DirEntry → Except E R) :
    ∀ (sel : List DirEntry), (∃ f ∈ sel, ∃ err, pf f = .error err) →
      ∃ e, sel.mapM (fun f => (pf f).map (fun r => (f, r))) = .error e ∧
        ∃ f ∈ sel, pf f = .error e := by
  intro sel
  induction sel with
  | nil =>
    rintro ⟨f, hf, -⟩
    exact absurd hf (List.not_mem_nil f)
  | cons a t ih =>
    rintro ⟨f, hf, err, herr⟩
    cases hpa : pf a with
    | error e =>
      refine ⟨e, ?_, a, List.mem_cons_self a t, hpa⟩
      rw [List.mapM_cons, hpa]
      rfl
    | ok r =>
      have hft : f ∈ t := by
        rcases List.mem_cons.mp hf with rfl | hmem
        · rw [hpa] at herr; cases herr
        · exact hmem
      obtain ⟨e, he, f', hf', herr'⟩ := ih ⟨f, hft, err, herr⟩
      refine ⟨e, ?_, f', List.mem_cons_of_mem a hf', herr'⟩
      rw [List.mapM_cons, hpa, he]
      rfl

/-- Helper: membership of a string in a two-element allow-list is the
disjunction of the two equality tests. -/
theorem contains_pair (a b x : String) : ([a, b] : List String).contains x = (x == a || x == b) := by
  cases hx : x == a <;> cases hy : x == b <;> simp [List.contains, List.elem, hx, hy]

/-- C7: with `valid_suffixes = None`, `parse_directory` selects exactly the
regular files directly in the directory whose lowercased suffix is `.xml` or
`.spold` (the default allow-list, matched case-insensitively), and when they
all parse it returns exactly one (path, root) pair per selected file, in
enumeration order. -/
theorem parse_directory_default_spec {E R : Type} (entries : List DirEntry)
    (pf : DirEntry → Except E R)
    (h : ∀ f ∈ entries.filter
        (fun f => f.is_file && (strLower f.suffix == ".xml" || strLower f.suffix == ".spold")),
      ∃ r, pf f = .ok r) :
    ∃ l, parse_directory entries pf none = .ok l ∧
      l.map Prod.fst = entries.filter
        (fun f => f.is_file &&
          (strLower f.suffix == ".xml" || strLower f.suffix == ".spold")) ∧
      l.length = (entries.filter
        (fun f => f.is_file &&
          (strLower f.suffix == ".xml" || strLower f.suffix == ".spold"))).length ∧
      ∀ fr ∈ l, pf fr.1 = .ok fr.2 := by
  have hfilter : entries.filter (selects [".xml", ".spold"]) = entries.filter
      (fun f => f.is_file &&
        (strLower f.suffix == ".xml" || strLower f.suffix == ".spold")) :=
    List.filter_congr (fun f _ => by rw [selects, contains_pair])
  obtain ⟨l, hl, hfst, hok⟩ := mapM_pair_ok pf (entries.filter (selects [".xml", ".spold"]))
    (hfilter ▸ h)
  refine ⟨l, hl, ?_, ?_, hok⟩
  · rw [hfst, hfilter]
  · rw [← hfilter, ← hfst, List.length_map]

/-- Witness for `parse_directory_default_spec`: a directory with two matching
regular files (one with an upper-case suffix), one file of another suffix, and
one non-file entry yields exactly the two matching files, in order. -/
theorem parse_directory_default_spec_witness :
    ∃ l, parse_directory
        [⟨"a.xml", true, ".xml"⟩, ⟨"b.XML", true, ".XML"⟩,
          ⟨"c.txt", true, ".txt"⟩, ⟨"d.xml", false, ".xml"⟩]
        (fun _ => (Except.ok 0 : Except String Nat)) none = .ok l ∧
      l.map Prod.fst = [⟨"a.xml", true, ".xml"⟩, ⟨"b.XML", true, ".XML"⟩] ∧
      l.length = 2 ∧ ∀ fr ∈ l, (fun _ => (Except.ok 0 : Except String Nat)) fr.1 = .ok fr.2 := by
  obtain ⟨l, hl, hfst, hlen, hok⟩ := parse_directory_default_spec
    [⟨"a.xml", true, ".xml"⟩, ⟨"b.XML", true, ".XML"⟩,
      ⟨"c.txt", true, ".txt"⟩, ⟨"d.xml", false, ".xml"⟩]
    (fun _ => (Except.ok 0 : Except String Nat)) (fun f _ => ⟨0, rfl⟩)
  refine ⟨l, hl, ?_, ?_, hok⟩
  · rw [hfst]; decide
  · rw [hlen]; decide

/-- Counterexample to fully general case-insensitive allow-list matching in
`parse_directory`: the regular file `a.xml` matches the caller-supplied
allow-list `[".XML"]` case-insensitively, yet `parse_directory` returns zero
pairs instead of one, because only the file suffix is lowercased before the
membership test. -/
theorem parse_directory_case_insensitive_counterexample :
    (∃ v ∈ ([".XML"] : List String), strLower ".xml" = strLower v) ∧
    (⟨"a.xml", true, ".xml"⟩ : DirEntry).is_file = true ∧
    parse_directory [⟨"a.xml", true, ".xml"⟩]
      (fun _ => (Except.ok 0 : Except String Nat)) (some [".XML"]) = .ok [] :=
  ⟨⟨".XML", by decide, by decide⟩, rfl, rfl⟩

/-- C8: when some selected file fails to parse, `parse_directory` fails as a
whole — the parse error of a failing file propagates and no partial result
list is produced. -/
theorem parse_directory_aborts_on_failure {E R : Type} (entries : List DirEntry)
    (pf : DirEntry → Except E R) (valid_suffixes : Option (List String))
    (h : ∃ f ∈ entries.filter (selects (valid_suffixes.getD [".xml", ".spold"])),
      ∃ err, pf f = .error err) :
    ∃ e, parse_directory entries pf valid_suffixes = .error e ∧
      ∃ f ∈ entries.filter (selects (valid_suffixes.getD [".xml", ".spold"])),
        pf f = .error e :=
  mapM_pair_error pf _ h

/-- Witness for `parse_directory_aborts_on_failure`: one malformed file among
otherwise-valid files aborts the whole batch with that file's error. -/
theorem parse_directory_aborts_on_failure_witness :
    ∃ e, parse_directory [⟨"good.xml", true, ".xml"⟩, ⟨"bad.xml", true, ".xml"⟩]
        (fun f => if f.name == "bad.xml" then Except.error "malformed"
          else (Except.ok 0 : Except String Nat)) none = .error e ∧
      ∃ f ∈ ([⟨"good.xml", true, ".xml"⟩, ⟨"bad.xml", true, ".xml"⟩] :
          List DirEntry).filter (selects ((none : Option (List String)).getD
            [".xml", ".spold"])),
        (fun f => if f.name == "bad.xml" then Except.error "malformed"
          else (Except.ok 0 : Except String Nat)) f = .error e :=
  parse_directory_aborts_on_failure
    [⟨"good.xml", true, ".xml"⟩, ⟨"bad.xml", true, ".xml"⟩]
    (fun f => if f.name == "bad.xml" then Except.error "malformed"
      else (Except.ok 0 : Except String Nat)) none
    ⟨⟨"bad.xml", true, ".xml"⟩, by decide, "malformed", rfl⟩

/-- C10: a file is selected iff the lowercased form of its suffix is a member
of the `valid_suffixes` list; consequently the advertised case-insensitive
matching only holds for lowercase allow-list entries — with
`valid_suffixes = [".XML"]` over a directory of `.xml` files, no file is
selected at all and the result is the empty list. -/
theorem parse_directory_lowercases_only_the_suffix {E R : Type}
    (pf : DirEntry → Except E R) :
    (∀ (vs : List String) (f : DirEntry),
      selects vs f = true ↔ (f.is_file = true ∧ strLower f.suffix ∈ vs)) ∧
    (∀ entries : List DirEntry, (∀ f ∈ entries, f.suffix = ".xml") →
      parse_directory entries pf (some [".XML"]) = .ok []) := by
  constructor
  · intro vs f
    rw [selects, Bool.and_eq_true, List.elem_iff]
  · intro entries h
    have hsel : entries.filter (selects [".XML"]) = [] := by
      rw [List.filter_eq_nil_iff]
      intro f hf
      rw [selects, h f hf]
      have hc : ([".XML"] : List String).contains (strLower ".xml") = false := by decide
      rw [hc, Bool.and_false]
      exact Bool.false_ne_true
    show (entries.filter (selects [".XML"])).mapM
      (fun f => (pf f).map (fun r => (f, r))) = Except.ok []
    rw [hsel]
    rfl

/-- Witness for `parse_directory_lowercases_only_the_suffix`: a regular
`.xml` file is not selected under the caller-supplied allow-list `[".XML"]`,
and the lowercased suffix `.xml` is indeed selected by a lowercase
allow-list. -/
theorem parse_directory_lowercases_only_the_suffix_witness :
    parse_directory [⟨"a.xml", true, ".xml"⟩]
      (fun _ => (Except.ok 0 : Except String Nat)) (some [".XML"]) = .ok [] ∧
    selects [".xml"] ⟨"a.xml", true, ".xml"⟩ = true :=
  ⟨(parse_directory_lowercases_only_the_suffix
      (fun _ => (Except.ok 0 : Except String Nat))).2
      [⟨"a.xml", true, ".xml"⟩] (fun f hf => by
        rw [List.mem_singleton] at hf
        rw [hf]),
   ((parse_directory_lowercases_only_the_suffix
      (fun _ => (Except.ok 0 : Except String Nat))).1
      [".xml"] ⟨"a.xml", true, ".xml"⟩).mpr ⟨rfl, by decide⟩⟩

/-- An element tree node as lxml stores it: tag, attributes in order, optional
text content, and the ordered children. -/
inductive XMLNode where
  | elem (tag : String) (attrs : List (String × String)) (text : Option String)
      (children : List XMLNode)

/-- Attribute serialization: each raw attribute value is emitted verbatim. -/
def serializeAttrs : List (String × String) → String
  | [] => ""
  | (k, v) :: rest => " " ++ k ++ "=\"" ++ v ++ "\"" ++ serializeAttrs rest

mutual

/-- The lxml serializer boundary used by `ElementTree.write`: a pure printer
over the current tree state, emitting tags, attributes, text and children in
stored order, all raw-text values verbatim. -/
def serializeNode : XMLNode → String
  | .elem tag attrs text children =>
      "<" ++ tag ++ serializeAttrs attrs ++ ">" ++ text.getD "" ++
        serializeChildren children ++ "</" ++ tag ++ ">"

/-- Children are serialized left to right in stored order. -/
def serializeChildren : List XMLNode → String
  | [] => ""
  | x :: xs => serializeNode x ++ serializeChildren xs

end

/-- The XML declaration `ElementTree.write` emits for
`xml_declaration=True, encoding="UTF-8"`. -/
def xmlDeclaration : String :=
  "<?xml version=\"1.0\" encoding=\"UTF-8\"?>\n"

/-- `save_file(root, path)` (`core.py` lines 280-288): wrap the root in an
`ElementTree` (a local rebinding, no tree mutation) and write it to `path`
pretty-printed with an XML declaration in UTF-8.  The write effect is embedded
as the updated file-system association list; the tree the caller holds is
returned unchanged. -/
def save_file (root : XMLNode) (path : String) (fs : List (String × String)) :
    XMLNode × List (String × String) :=
  let tree := root
  (tree, (path, xmlDeclaration ++ serializeNode tree) :: fs)

/-- C9: `save_file` leaves the tree unchanged — the tree after the call is the
very tree passed in, every tag, attribute, child order and text included —
while the file written at `path` is the XML declaration followed by the
serialization of the current tree state, raw-text values verbatim. -/
theorem save_file_frame (root : XMLNode) (path : String) (fs : List (String × String)) :
    (save_file root path fs).1 = root ∧
    (save_file root path fs).2 = (path, xmlDeclaration ++ serializeNode root) :: fs :=
  ⟨rfl, rfl⟩

end Pyecospold
